import Mathlib

/-!
Verification development for the MeteoIO CSV plugin
(src/Source/meteoio/meteoio/plugins/CsvIO.cc).

The definitions below are a shallow embedding of the CSV ingestion engine:
pure functions of `CsvIO.cc` become Lean functions, the mutation of
`CsvDateTime::auto_wrap` becomes explicit state passing, C++ `double`
arithmetic is modelled over `ℚ`, machine strings over `String`/`List Char`,
and exceptions over `Except String`.  Functions of the repository that are
only declared elsewhere (IOUtils, Date) are modelled from the specification
and say so in their doc comments.
-/

namespace CsvSpec

/-- Modelled from the spec: the distinguished nodata sentinel for measurement
values ("a distinguished value meaning no measurement, distinct from zero";
the value is -999 in this codebase; IOUtils.h is not part of the provided
sources). -/
def nodataQ : ℚ := -999

/-- Modelled from the spec: the integer nodata sentinel used by
`CsvDateTime::year_cst` to mean "no fixed year configured" (IOUtils::inodata;
IOUtils.h is not part of the provided sources). -/
def inodata : Int := -999

/-- The fields of the `CsvDateTime` helper class of CsvIO.cc that drive the
fixed-year fallback: the configured constant year `year_cst` and the
`auto_wrap` flag that `getFixedYear` may permanently clear. -/
structure CsvDT where
  year_cst : Int
  auto_wrap : Bool
deriving DecidableEq

/-- Embedding of `CsvDateTime::getFixedYear(const double& i_jdn)` (CsvIO.cc:336-341).
The C++ method mutates `auto_wrap`; here the state is threaded explicitly:
the result is the returned year together with the updated state. -/
def getFixedYearJdn (st : CsvDT) (i_jdn : ℚ) : Int × CsvDT :=
  let st1 := if i_jdn < 273 then { st with auto_wrap := false } else st
  if st1.auto_wrap then (st1.year_cst - 1, st1) else (st1.year_cst, st1)

/-- Embedding of `CsvDateTime::getFixedYear(const int& i_month)` (CsvIO.cc:343-348),
with the `auto_wrap` mutation made explicit state passing. -/
def getFixedYearMonth (st : CsvDT) (i_month : Int) : Int × CsvDT :=
  let st1 := if i_month < 10 then { st with auto_wrap := false } else st
  if st1.auto_wrap then (st1.year_cst - 1, st1) else (st1.year_cst, st1)

/-- Modelled from the spec: whitespace trimming of a line or token
(IOUtils::trim is not part of the provided sources; the spec's Row Pipeline
trims whitespace around lines). -/
def trimChars (s : List Char) : List Char :=
  ((s.dropWhile Char.isWhitespace).reverse.dropWhile Char.isWhitespace).reverse

/-- Trimming packaged on `String`. -/
def trimS (s : String) : String := ⟨trimChars s.data⟩

/-- Embedding of `IOUtils::stripComments` as used by CsvIO.cc: truncate the line at the
first occurrence of the comment marker.  Modelled from the spec ("truncate at
the first comment marker occurrence"; IOUtils.cc is not part of the provided
sources). -/
def stripComments (mk : Char) (s : List Char) : List Char :=
  s.takeWhile (fun c => c ≠ mk)

/-- The single-quote character, used by the quoted-nodata comparisons. -/
def squoteChar : Char := Char.ofNat 39

/-- Embedding of `IOUtils::removeQuotes`: drop double and single quote characters from the
line.  Modelled from the spec ("optionally strip quote characters";
IOUtils.cc is not part of the provided sources). -/
def removeQuotes (s : List Char) : List Char :=
  s.filter (fun c => c ≠ '"' ∧ c ≠ squoteChar)

/-- Split a character list at every occurrence of the delimiter, keeping empty
tokens.  Modelled from the spec: `IOUtils::readLineToVec(line, vec, delim)`
is not part of the provided sources ("tokenize by the configured
delimiter"). -/
def splitOnChar (delim : Char) : List Char → List (List Char)
  | [] => [[]]
  | c :: cs =>
    let r := splitOnChar delim cs
    if c = delim then [] :: r
    else (c :: r.headD []) :: r.tail

/-- Split a character list on whitespace runs, dropping empty tokens.
Modelled from the spec: the whitespace variant of `IOUtils::readLineToVec`
("collapsing repeated whitespace when the delimiter is whitespace"). -/
def splitWSAux : List Char → List Char → List (List Char)
  | [], acc => if acc = [] then [] else [acc.reverse]
  | c :: cs, acc =>
    if c.isWhitespace then
      if acc = [] then splitWSAux cs [] else acc.reverse :: splitWSAux cs []
    else splitWSAux cs (c :: acc)

/-- Tokenize a line as `CsvIO::readCSVFile` does (CsvIO.cc:1488): the
delimiter-split variant when the delimiter is not a space, the
whitespace-collapsing variant otherwise. -/
def tokenize (delim : Char) (line : String) : List String :=
  if delim = ' ' then (splitWSAux line.data []).map fun l => ⟨l⟩
  else (splitOnChar delim line.data).map fun l => ⟨l⟩

/-- Value of a digit string, most significant digit first. -/
def digitsVal (l : List Char) : Nat :=
  l.foldl (fun a c => a * 10 + (c.toNat - 48)) 0

/-- Modelled from the spec: strict decimal parsing of a token as a number
(`IOUtils::convertString<double>` is not part of the provided sources; the
spec's Row Pipeline "parses as a floating-point value").  Rationals stand in
for IEEE doubles; the whole token must be consumed. -/
def parseNumber (s : String) : Option ℚ :=
  let (neg, l2) :=
    match s.data with
    | '-' :: rest => (true, rest)
    | '+' :: rest => (false, rest)
    | l => (false, l)
  let ip := l2.takeWhile Char.isDigit
  let r1 := l2.dropWhile Char.isDigit
  if ip = [] then none
  else
    let (q, rest) :=
      match r1 with
      | '.' :: fr =>
        (((digitsVal ip : ℚ) + (digitsVal (fr.takeWhile Char.isDigit) : ℚ) /
            ((10 : ℚ) ^ (fr.takeWhile Char.isDigit).length)),
         fr.dropWhile Char.isDigit)
      | _ => ((digitsVal ip : ℚ), r1)
    if rest = [] then some (if neg then -q else q) else none

/-- Modelled from the spec: strict decimal parsing of a token as an integer
(`IOUtils::convertString` over integral types is not part of the provided
sources). -/
def parseInt (s : String) : Option Int :=
  let (neg, l2) :=
    match s.data with
    | '-' :: rest => (true, rest)
    | '+' :: rest => (false, rest)
    | l => (false, l)
  if l2 = [] then none
  else if l2.all Char.isDigit then
    some (if neg then -(digitsVal l2 : Int) else (digitsVal l2 : Int))
  else none

/-- Modelled from the spec: the MeteoIO `Date` built from a year and a
(decimal) julian day number, `Date(year, jdn, tz)` (Date.cc is not part of
the provided sources).  It is represented as the lexicographically ordered
pair (year, julian day), which agrees with the ordering and equality of the
absolute timestamp for julian days within a year's range. -/
def YJDate : Type := Int ×ₗ ℚ

instance : LinearOrder YJDate := inferInstanceAs (LinearOrder (Int ×ₗ ℚ))

instance : DecidableEq YJDate := inferInstanceAs (DecidableEq (Int ×ₗ ℚ))

/-- The `Date(year, jdn, tz)` constructor call of the year+jdn parser
(CsvIO.cc:1098), in the `YJDate` model. -/
def mkYearJdnDate (year : Int) (jdn : ℚ) : YJDate := toLex (year, jdn)

/-- Embedding of `CsvParameters::parseDate(value_str, UNIX)` (CsvIO.cc:1102-1110 and the
dispatch at 1171-1172): the decimal date column holds integer seconds since
the UNIX epoch; `Date::setUnixDate` is order- and equality-faithfully
modelled by the integer itself.  The `CsvDateTime` state is unchanged. -/
def parseDateUnix (col : Nat) (st : CsvDT) (toks : List String) :
    Option Int × CsvDT :=
  match parseInt (toks.getD col "") with
  | none => (none, st)
  | some v => (some v, st)

/-- Embedding of `CsvParameters::parseJdnDate`, final branch: year + decimal julian day
number (CsvIO.cc:1090-1099), with `parseDateComponent` (CsvIO.cc:1131-1149,
an absent column yields the value 0) and the fixed-year fallback through
`getFixedYearJdn` threading the `CsvDateTime` state. -/
def parseJdnYearDecimal (yearCol : Option Nat) (jdnCol : Nat) (st : CsvDT)
    (toks : List String) : Option YJDate × CsvDT :=
  match parseNumber (toks.getD jdnCol "") with
  | none => (none, st)
  | some jdn =>
    let oy : Option Int :=
      match yearCol with
      | none => some 0
      | some c => parseInt (toks.getD c "")
    match oy with
    | none => (none, st)
    | some y =>
      if y = 0 ∧ st.year_cst ≠ inodata then
        let r := getFixedYearJdn st jdn
        (some (mkYearJdnDate r.1 jdn), r.2)
      else (some (mkYearJdnDate y jdn), st)

/-- The ascending/descending transition test of the pre-reading probe
(CsvIO.cc:819): a transition counts as ascending exactly when the new
timestamp is strictly greater than the previous one; everything else —
including an equal timestamp — falls to the `else count_dsc++` branch. -/
def transAsc {D : Type} [LinearOrder D] (prev dt : D) : Bool :=
  decide (prev < dt)

/-- State of the file-order probe of `CsvParameters::setFile`
(CsvIO.cc:766-771): previous parsed timestamp, ascending and descending
transition counts, the `fields_ready` latch, and the date-resolver state. -/
structure ProbeSt (D : Type) where
  prev : Option D
  cAsc : Nat
  cDsc : Nat
  fieldsReady : Bool
  dt : CsvDT
deriving DecidableEq

/-- One probed data row (CsvIO.cc:814-823): rows with enough columns to reach
all date/time columns are date-parsed; a row whose date is undefined is
skipped; otherwise the transition against the previous timestamp is
counted. -/
def probeRow {D : Type} [LinearOrder D] (delim : Char) (maxdt : Nat)
    (pd : CsvDT → List String → Option D × CsvDT) (st : ProbeSt D)
    (line : String) : ProbeSt D :=
  let toks := tokenize delim line
  if toks.length > maxdt then
    let r := pd st.dt toks
    let st := { st with dt := r.2 }
    match r.1 with
    | none => st
    | some dtv =>
      match st.prev with
      | none => { st with prev := some dtv }
      | some pv =>
        if transAsc pv dtv then { st with prev := some dtv, cAsc := st.cAsc + 1 }
        else { st with prev := some dtv, cDsc := st.cDsc + 1 }
  else st

/-- The source's `min_valid_lines` (CsvIO.cc:768). -/
def minValidLines : Nat := 10

/-- The data-section part of the pre-reading loop of
`CsvParameters::setFile` (CsvIO.cc:774-825), applied to the lines that follow
the declared header lines: comment stripping and trimming, empty lines
skipped, the first surviving line consumed by `parseFields` (the
`fields_ready` latch, CsvIO.cc:808-812) and hence not probed, the rest probed
by `probeRow` until `min_valid_lines` transitions have been counted. -/
def probeLoop {D : Type} [LinearOrder D] (delim : Char) (cmk : Option Char)
    (maxdt : Nat) (pd : CsvDT → List String → Option D × CsvDT) :
    List String → ProbeSt D → ProbeSt D
  | [], st => st
  | l :: rest, st =>
    let l1 := match cmk with
      | some mk => stripComments mk l.data
      | none => l.data
    let line : String := ⟨trimChars l1⟩
    let st1 :=
      if line = "" then st
      else if st.fieldsReady = false then { st with fieldsReady := true }
      else probeRow delim maxdt pd st line
    if st1.cAsc + st1.cDsc ≥ minValidLines then st1
    else probeLoop delim cmk maxdt pd rest st1

/-- The final file-order decision of `CsvParameters::setFile`
(CsvIO.cc:835): `asc_order` starts `true` and is set `false` exactly when
strictly more descending than ascending transitions were counted. -/
def ascOrderOf {D : Type} (st : ProbeSt D) : Bool :=
  if st.cAsc < st.cDsc then false else true

/-- The per-file parsing parameters of `CsvParameters` consumed by
`CsvIO::readCSVFile`, together with the two error-policy flags that the C++
code keeps on the `CsvIO` object (`silent_errors`, `errors_to_nodata`,
CsvIO.cc:1192).  `comments_mk = none` models the `\n` marker that disables
comment stripping (CsvIO.cc:1478). -/
structure CsvParams where
  csv_fields : List String
  skip_fields : List Nat
  units_offset : List ℚ
  units_multiplier : List ℚ
  nodata : String
  header_lines : Nat
  header_repeat_mk : Option String
  header_repeat_at_start : Bool
  ID_col : Option Nat
  filter_ID : String
  csv_delim : Char
  purgeQuotes : Bool
  comments_mk : Option Char
  asc_order : Bool
  silent_errors : Bool
  errors_to_nodata : Bool
deriving DecidableEq

/-- The source's `streampos_every_n_lines` (CsvIO.cc:1188). -/
def streamposEveryNLines : Nat := 2000

/-- One canonical record: timestamp plus field-name-to-value mapping, in
column order (MeteoData restricted to what the claims need; station identity
is constant per file and elided). -/
structure Record (D : Type) where
  date : D
  fields : List (String × ℚ)
deriving DecidableEq

/-- The field name of column `ii` (`params.csv_fields[ii]`, CsvIO.cc:1538). -/
def fieldName (p : CsvParams) (ii : Nat) : String := p.csv_fields.getD ii ""

/-- The template record's fields (`CsvIO::createTemplate`, CsvIO.cc:1401-1413):
one entry per non-skipped column, initialized to the nodata sentinel
(MeteoData::addParameter initializes a fresh parameter to nodata; MeteoData
is not part of the provided sources, modelled from the spec: "value absent
means nodata"). -/
def templateFields (p : CsvParams) : List (String × ℚ) :=
  (p.csv_fields.enum.filter (fun e => ¬ p.skip_fields.contains e.1)).map
    (fun e => (e.2, nodataQ))

/-- The assignment `md(name) = v`: update the first field with the given name (MeteoData's
named-parameter assignment, modelled from the spec; absent names are a no-op
here, which the pipeline never exercises since the template holds every
non-skipped column name). -/
def setField : List (String × ℚ) → String → ℚ → List (String × ℚ)
  | [], _, _ => []
  | (n, v) :: rest, name, x =>
    if n = name then (n, x) :: rest else (n, v) :: setField rest name x

/-- Value of the first field with the given name. -/
def lookupField (fs : List (String × ℚ)) (name : String) : Option ℚ :=
  (fs.find? (fun e => decide (e.1 = name))).map (fun e => e.2)

/-- The nodata marker wrapped in double quotes (CsvIO.cc:1468). -/
def dquote (s : String) : String := "\"" ++ s ++ "\""

/-- The nodata marker wrapped in single quotes (CsvIO.cc:1469). -/
def squote (s : String) : String :=
  ⟨squoteChar :: (s ++ ⟨[squoteChar]⟩).data⟩

/-- The multiplier step of the unit conversion (CsvIO.cc:1553): applied when
a multiplier list is declared and the value is not the nodata sentinel. -/
def applyMult (p : CsvParams) (ii : Nat) (v : ℚ) : ℚ :=
  if p.units_multiplier ≠ [] ∧ v ≠ nodataQ
    then v * p.units_multiplier.getD ii 1 else v

/-- The offset step of the unit conversion (CsvIO.cc:1554): applied when an
offset list is declared and the value is not the nodata sentinel. -/
def applyOffset (p : CsvParams) (ii : Nat) (v : ℚ) : ℚ :=
  if p.units_offset ≠ [] ∧ v ≠ nodataQ
    then v + p.units_offset.getD ii 0 else v

/-- The unit-conversion tail of the per-column body (CsvIO.cc:1553-1554):
multiply by the column's multiplier, then add the column's offset. -/
def applyUnits (p : CsvParams) (ii : Nat) (v : ℚ) : ℚ :=
  applyOffset p ii (applyMult p ii v)

/-- Accumulator of the per-row field loop (CsvIO.cc:1529-1531): the fields
built so far and the `no_errors` flag that decides whether the row is kept. -/
structure RowBuild where
  fields : List (String × ℚ)
  no_errors : Bool
deriving DecidableEq

/-- The body of the per-column loop of `CsvIO::readCSVFile`
(CsvIO.cc:1532-1556): skipped columns are ignored; an empty token or the
(optionally quoted) nodata marker leaves the template's nodata value in
place; `NAN`/`NULL` store the nodata sentinel; otherwise the token is parsed
as a number — on failure `silent_errors` clears `no_errors` (the row will be
dropped), else `errors_to_nodata` substitutes the nodata sentinel, else the
read aborts; a parsed value passes through the unit conversions. -/
def fieldStep (p : CsvParams) (st : RowBuild) (ii : Nat) (tok : String) :
    Except String RowBuild :=
  if p.skip_fields.contains ii then .ok st
  else if tok = "" ∨ tok = p.nodata ∨ tok = dquote p.nodata ∨ tok = squote p.nodata
    then .ok st
  else if tok = "NAN" ∨ tok = "NULL" then
    .ok { st with fields := setField st.fields (fieldName p ii) nodataQ }
  else
    match parseNumber tok with
    | none =>
      if p.silent_errors then .ok { st with no_errors := false }
      else if p.errors_to_nodata then
        .ok { st with fields := setField st.fields (fieldName p ii) (applyUnits p ii nodataQ) }
      else .error ("could not parse field")
    | some v =>
      .ok { st with fields := setField st.fields (fieldName p ii) (applyUnits p ii v) }

/-- The per-row field loop over the enumerated tokens (CsvIO.cc:1532-1556). -/
def buildRowAux (p : CsvParams) : List (Nat × String) → RowBuild → Except String RowBuild
  | [], st => .ok st
  | e :: rest, st =>
    match fieldStep p st e.1 e.2 with
    | .error msg => .error msg
    | .ok st1 => buildRowAux p rest st1

/-- Build one row's fields from its tokens, starting from the template
(CsvIO.cc:1529-1556). -/
def buildRow (p : CsvParams) (toks : List String) : Except String RowBuild :=
  buildRowAux p toks.enum { fields := templateFields p, no_errors := true }

/-- State of the data-reading loop of `CsvIO::readCSVFile`: current line
number, the (possibly discovered) expected field count, the collected
records, the recorded position-index entries, and the date-resolver state. -/
structure LoopSt (D : Type) where
  linenr : Nat
  nrFields : Nat
  recs : List (Record D)
  indexer : List (D × Nat)
  dt : CsvDT
deriving DecidableEq

/-- Outcome of processing one physical line: abort with an error, continue
(optionally skipping the next `extraSkip` lines, for the repeated-header
marker), or stop the scan (the `break` statements). -/
inductive LineRes (D : Type) where
  | err (msg : String)
  | cont (st : LoopSt D) (extraSkip : Nat)
  | stop (st : LoopSt D)
deriving DecidableEq

/-- The index entries carried by a line outcome. -/
def LineRes.ixOf {D : Type} : LineRes D → List (D × Nat)
  | .err _ => []
  | .cont st _ => st.indexer
  | .stop st => st.indexer

/-- The range decision of `CsvIO::readCSVFile` (CsvIO.cc:1521-1527): for an
ascending file a row before `dateStart` is skipped and a row after `dateEnd`
stops the scan; for a descending file the two roles swap.  `.keep` rows are
the ones that reach the field loop. -/
inductive RAct where
  | keep
  | skip
  | stop
deriving DecidableEq

/-- The range decision itself (CsvIO.cc:1521-1527). -/
def rangeAction {D : Type} [LinearOrder D] (asc : Bool) (dateStart dateEnd dt : D) :
    RAct :=
  if asc then
    if dt < dateStart then .skip else if dateEnd < dt then .stop else .keep
  else
    if dt < dateStart then .stop else if dateEnd < dt then .skip else .keep

/-- The row-emission step (CsvIO.cc:1557): the row joins the output exactly
when `no_errors` survived the field loop. -/
def emitRow {D : Type} (st : LoopSt D) (dt : D) (rb : RowBuild) : LoopSt D :=
  if rb.no_errors then { st with recs := st.recs ++ [⟨dt, rb.fields⟩] } else st

/-- Substring containment, for the repeated-header marker test
(`line.find(mk) != npos`, CsvIO.cc:1482). -/
def containsSub (pat : List Char) : List Char → Bool
  | [] => pat = []
  | c :: cs => pat.isPrefixOf (c :: cs) || containsSub pat cs

/-- Whether the cleaned line matches the repeated-header marker
(CsvIO.cc:1471, 1482): only when a non-empty marker is configured. -/
def hasRepeatMk (p : CsvParams) (line : String) : Bool :=
  match p.header_repeat_mk with
  | none => false
  | some mk => mk ≠ "" && containsSub mk.data line.data

/-- The position-index recording step (CsvIO.cc:1517-1520): at the fixed row
cadence the row's resolved timestamp is recorded with the current offset
(the byte offset is modelled by the line number).  Nothing here consults the
discovered file order. -/
def recordIx {D : Type} (st : LoopSt D) (dt : D) : LoopSt D :=
  if st.linenr % streamposEveryNLines = 0
  then { st with indexer := st.indexer ++ [(dt, st.linenr)] } else st

/-- The tail of the per-line processing once the date is resolved
(CsvIO.cc:1517-1557): position-index recording, range decision, row building
and emission. -/
def afterDate {D : Type} [LinearOrder D] (p : CsvParams) (dateStart dateEnd : D)
    (st0 : LoopSt D) (toks : List String) (dt : D) : LineRes D :=
  let st := recordIx st0 dt
  match rangeAction p.asc_order dateStart dateEnd dt with
  | .skip => .cont st 0
  | .stop => .stop st
  | .keep =>
    match buildRow p toks with
    | .error msg => .err msg
    | .ok rb => .cont (emitRow st dt rb) 0

/-- Processing of one tokenized data line, from the station-ID filter on
(CsvIO.cc:1489-1557): discover the field count from the first data line if
none was declared, filter on the station-ID column (aborting when the line
is too short to reach it), check the field count (policy-controlled), resolve
the date (policy-controlled), then hand over to `afterDate`. -/
def processTokens {D : Type} [LinearOrder D] (p : CsvParams)
    (pd : CsvDT → List String → Option D × CsvDT) (dateStart dateEnd : D)
    (st0 : LoopSt D) (toks : List String) : LineRes D :=
  let st := if st0.nrFields = 0 then { st0 with nrFields := toks.length } else st0
  let idOK : Except String Bool :=
    match p.ID_col with
    | none => .ok true
    | some c =>
      if toks.length ≤ c then .error ("declared station ID column out of range")
      else .ok (toks.getD c "" = p.filter_ID)
  match idOK with
  | .error msg => .err msg
  | .ok false => .cont st 0
  | .ok true =>
    if toks.length ≠ st.nrFields then
      if p.silent_errors then .cont st 0 else .err ("field count mismatch")
    else
      let r := pd st.dt toks
      let st := { st with dt := r.2 }
      match r.1 with
      | none => if p.silent_errors then .cont st 0 else .err ("date parse failure")
      | some dt => afterDate p dateStart dateEnd st toks dt

/-- Processing of one physical line of `CsvIO::readCSVFile`
(CsvIO.cc:1476-1557): count the line, strip comments, optionally strip
quotes, trim; skip empty lines; on the repeated-header marker skip the
following header lines; otherwise tokenize and hand over to
`processTokens`. -/
def processLine {D : Type} [LinearOrder D] (p : CsvParams)
    (pd : CsvDT → List String → Option D × CsvDT) (dateStart dateEnd : D)
    (st0 : LoopSt D) (rawLine : String) : LineRes D :=
  let st := { st0 with linenr := st0.linenr + 1 }
  let l1 := match p.comments_mk with
    | some mk => stripComments mk rawLine.data
    | none => rawLine.data
  let l2 := if p.purgeQuotes then removeQuotes l1 else l1
  let line : String := ⟨trimChars l2⟩
  if line = "" then .cont st 0
  else if hasRepeatMk p line then
    .cont { st with linenr := st.linenr + p.header_lines } p.header_lines
  else processTokens p pd dateStart dateEnd st (tokenize p.csv_delim line)

/-- The data-reading loop of `CsvIO::readCSVFile` (CsvIO.cc:1475-1558),
structurally recursive on a fuel bound so that it reduces definitionally;
`readLoop` supplies the line count as fuel, which always suffices since each
step consumes at least one line. -/
def readLoopFuel {D : Type} [LinearOrder D] (p : CsvParams)
    (pd : CsvDT → List String → Option D × CsvDT) (dateStart dateEnd : D) :
    Nat → List String → LoopSt D → Except String (LoopSt D)
  | 0, _, st => .ok st
  | _ + 1, [], st => .ok st
  | fuel + 1, l :: rest, st =>
    match processLine p pd dateStart dateEnd st l with
    | .err msg => .error msg
    | .stop st1 => .ok st1
    | .cont st1 k => readLoopFuel p pd dateStart dateEnd fuel (rest.drop k) st1

/-- The data-reading loop of `CsvIO::readCSVFile` (CsvIO.cc:1475-1558). -/
def readLoop {D : Type} [LinearOrder D] (p : CsvParams)
    (pd : CsvDT → List String → Option D × CsvDT) (dateStart dateEnd : D)
    (ls : List String) (st : LoopSt D) : Except String (LoopSt D) :=
  readLoopFuel p pd dateStart dateEnd ls.length ls st

/-- The number of header lines skipped when not resuming from an index entry
(CsvIO.cc:1459). -/
def skipCount (p : CsvParams) : Nat :=
  if p.header_repeat_at_start then p.header_lines + 1 else p.header_lines

/-- The units-length precondition checked before any row is read
(CsvIO.cc:1432-1437). -/
def unitsBad (p : CsvParams) : Prop :=
  (p.units_offset ≠ [] ∧ p.units_offset.length ≠ p.csv_fields.length) ∨
  (p.units_multiplier ≠ [] ∧ p.units_multiplier.length ≠ p.csv_fields.length)

instance (p : CsvParams) : Decidable (unitsBad p) := by
  unfold unitsBad; infer_instance

/-- Embedding of `CsvIO::readCSVFile` (CsvIO.cc:1428-1563).  The file is the list of its
physical lines; `seekTo` is the position-index lookup result for `dateStart`
(`indexer_map[filename].getIndex(dateStart)`, `none` modelling the `-1`
miss), honoured only for ascending files (CsvIO.cc:1455); byte offsets are
modelled by line counts.  Returns the records (reversed for a descending
file, CsvIO.cc:1560), the final date-resolver state and the recorded index
entries. -/
def readCSVFile {D : Type} [LinearOrder D] (p : CsvParams)
    (pd : CsvDT → List String → Option D × CsvDT) (dt0 : CsvDT)
    (seekTo : Option Nat) (lines : List String) (dateStart dateEnd : D) :
    Except String (List (Record D) × CsvDT × List (D × Nat)) :=
  if unitsBad p then .error ("units length mismatch")
  else
    let start : List String × Nat :=
      match seekTo with
      | some fp =>
        if p.asc_order then (lines.drop fp, fp)
        else (lines.drop (skipCount p), skipCount p)
      | none => (lines.drop (skipCount p), skipCount p)
    match readLoop p pd dateStart dateEnd start.1
        { linenr := start.2, nrFields := p.csv_fields.length, recs := [],
          indexer := [], dt := dt0 } with
    | .error msg => .error msg
    | .ok st =>
      .ok (if p.asc_order then st.recs else st.recs.reverse, st.dt, st.indexer)

/-- The records component of a read, `[]` on error. -/
def recsOf {D : Type}
    (r : Except String (List (Record D) × CsvDT × List (D × Nat))) :
    List (Record D) :=
  match r with
  | .ok x => x.1
  | .error _ => []

/-- The final date-resolver state of a read. -/
def stOf {D : Type}
    (r : Except String (List (Record D) × CsvDT × List (D × Nat))) : CsvDT :=
  match r with
  | .ok x => x.2.1
  | .error _ => ⟨0, false⟩

/-- The recorded index entries of a read, `[]` on error. -/
def ixOf {D : Type}
    (r : Except String (List (Record D) × CsvDT × List (D × Nat))) :
    List (D × Nat) :=
  match r with
  | .ok x => x.2.2
  | .error _ => []

/-- The six date/time tokens of `CsvParameters::setDateTimeSpec`
(CsvIO.cc:880). -/
inductive DTKey where
  | yyyy
  | mm
  | dd
  | hh24
  | mi
  | ss
deriving DecidableEq

instance : Fintype DTKey where
  elems :=
    ⟨Multiset.ofList [DTKey.yyyy, DTKey.mm, DTKey.dd, DTKey.hh24, DTKey.mi, DTKey.ss],
     by decide⟩
  complete := fun x => by cases x <;> decide

/-- The ISO field index of each token (year = 0 … seconds = 5,
CsvIO.cc:876-886). -/
def DTKey.isoIdx : DTKey → Fin 6
  | .yyyy => 0
  | .mm => 1
  | .dd => 2
  | .hh24 => 3
  | .mi => 4
  | .ss => 5

/-- The inverse of `DTKey.isoIdx`. -/
def keyOfIdx : Fin 6 → DTKey
  | 0 => .yyyy
  | 1 => .mm
  | 2 => .dd
  | 3 => .hh24
  | 4 => .mi
  | 5 => .ss

/-- The scanf placeholder width each token is replaced with
(CsvIO.cc:901-906): `YYYY` → `%4f`, `MM`/`DD`/`HH24`/`MI` → `%2f`,
`SS` → `%f`; `0` encodes the unbounded width of `%f`. -/
def DTKey.scanWidth : DTKey → Nat
  | .yyyy => 4
  | .ss => 0
  | _ => 2

/-- The digit width a token's value occupies in a matching date/time string
(four digits for the year, two for every other field). -/
def DTKey.renderWidth : DTKey → Nat
  | .yyyy => 4
  | _ => 2

/-- A date/time pattern string, parsed into its structure: literal separator
characters interleaved with the recognized tokens.  This is the item-level
view of the string that `setDateTimeSpec` manipulates by position search and
textual replacement (CsvIO.cc:878-906). -/
inductive FmtItem where
  | lit (c : Char)
  | key (k : DTKey)
deriving DecidableEq

/-- The tokens of a pattern in order of appearance. -/
def patKeys (p : List FmtItem) : List DTKey :=
  p.filterMap fun i => match i with
    | .key k => some k
    | .lit _ => none

/-- The compiled `datetime_idx` (CsvIO.cc:881-891): the ISO index of every token, ordered
by the token's position in the pattern.  The source sorts the first-occurrence
positions; with each token occurring at most once (enforced by
`checkSpecString`, which rejects duplicated placeholders) this is exactly the
order of appearance. -/
def datetimeIdx (p : List FmtItem) : List (Fin 6) :=
  (patKeys p).map DTKey.isoIdx

/-- One element of the compiled scan template: a literal character or a
numeric placeholder of the given maximum width (`0` = unbounded). -/
inductive ScanItem where
  | slit (c : Char)
  | num (width : Nat)
deriving DecidableEq

/-- The compiled scan template (`datetime_format` after the replacements of
CsvIO.cc:901-906). -/
def toScanFmt (p : List FmtItem) : List ScanItem :=
  p.map fun i => match i with
    | .lit c => .slit c
    | .key k => .num k.scanWidth

/-- Literal separators that keep the item-level model faithful to the
string-level source: a digit literal would be swallowed by an adjacent
numeric conversion, and a `%` literal would be rejected by
`checkSpecString` (CsvIO.cc:860-874). -/
def litsOKB (p : List FmtItem) : Bool :=
  p.all fun i => match i with
    | .lit c => !c.isDigit && !(c = '%')
    | .key _ => true

/-- Well-formedness of a pattern accepted by the format specification
compiler: each token occurs at most once (a doubled token is rejected by
`checkSpecString`, CsvIO.cc:860-874) and the literal separators are
non-digit, non-`%` characters. -/
def PatWF (p : List FmtItem) : Prop :=
  (patKeys p).Nodup ∧ litsOKB p = true

instance (p : List FmtItem) : Decidable (PatWF p) := by
  unfold PatWF; infer_instance

/-- Whether an `SS` token is always followed by a literal separator other
than a decimal point (or ends the pattern): since `SS` compiles to the
unbounded `%f`, an immediately following numeric placeholder would be
swallowed by the greedy scan, and a following `.` separator would be
consumed as the start of a decimal fraction — in the source's sscanf exactly
as in this model. -/
def ssSepB : List FmtItem → Bool
  | [] => true
  | .key .ss :: rest =>
    (match rest with
     | [] => true
     | .lit c :: _ => if c = '.' then false else true
     | _ => false) && ssSepB rest
  | _ :: rest => ssSepB rest

/-- Fixed-width decimal rendering of a value, most significant digit first. -/
def padNum : Nat → Nat → List Char
  | 0, _ => []
  | w + 1, n => padNum w (n / 10) ++ [Nat.digitChar (n % 10)]

/-- The characters a single pattern item contributes to a matching date/time
string: the literal itself, or the token's value at its digit width. -/
def renderItem (v : DTKey → Nat) : FmtItem → List Char
  | .lit c => [c]
  | .key k => padNum k.renderWidth (v k)

/-- A combined date/time string whose tokens match the pattern's literal
structure and carry the values `v`. -/
def renderPat (p : List FmtItem) (v : DTKey → Nat) : List Char :=
  (p.map (renderItem v)).flatten

/-- The characters one scanf float conversion greedily consumes from the
front of its input: the leading digits and, when a decimal point follows
them, the point and the digits after it (sscanf `%f` accepts a decimal
fraction — CsvIO.cc:906 compiles `SS` to `%f` precisely so that fractional
seconds parse).  Signs and exponents never arise in the date strings at hand
and are elided. -/
def floatPrefix (s : List Char) : List Char :=
  match s.drop (s.takeWhile Char.isDigit).length with
  | c :: rest2 =>
    if c = '.' then
      s.takeWhile Char.isDigit ++ c :: rest2.takeWhile Char.isDigit
    else s.takeWhile Char.isDigit
  | [] => s.takeWhile Char.isDigit

/-- The numeric value of a consumed float prefix: integer part plus decimal
fraction. -/
def floatVal (l : List Char) : ℚ :=
  if (l.takeWhile Char.isDigit).length = l.length then
    (digitsVal (l.takeWhile Char.isDigit) : ℚ)
  else
    (digitsVal (l.takeWhile Char.isDigit) : ℚ) +
      (digitsVal ((l.drop ((l.takeWhile Char.isDigit).length + 1)).takeWhile
          Char.isDigit) : ℚ) /
        (10 : ℚ) ^
          ((l.drop ((l.takeWhile Char.isDigit).length + 1)).takeWhile
              Char.isDigit).length

/-- The characters consumed by one scanf numeric conversion of the given
maximum width (`0` = no bound): the float prefix of the input, truncated at
the width. -/
def scanNumDs (width : Nat) (s : List Char) : List Char :=
  floatPrefix (s.take (if width = 0 then s.length else width))

/-- One scanf numeric conversion (`%2f`, `%4f` or `%f`): greedily consume up
to `width` characters of a float (`0` = no bound), requiring at least one
digit among them. -/
def scanNum (width : Nat) (s : List Char) : Option (ℚ × List Char) :=
  if (scanNumDs width s).any Char.isDigit then
    some (floatVal (scanNumDs width s), s.drop (scanNumDs width s).length)
  else none

/-- The sscanf match of the compiled template against an input: literal
characters must match exactly, each placeholder yields one value; trailing
input is ignored (sscanf reports the number of successful conversions, and
`parseDate` only requires all of them, CsvIO.cc:988-1003). -/
def scanFmt : List ScanItem → List Char → Option (List ℚ)
  | [], _ => some []
  | .slit _ :: _, [] => none
  | .slit c :: fmt, x :: s => if x = c then scanFmt fmt s else none
  | .num w :: fmt, s =>
    match scanNum w s with
    | none => none
    | some r =>
      match scanFmt fmt r.2 with
      | none => none
      | some ns => some (r.1 :: ns)

/-- The scatter of the scanned values into the six ISO argument slots: the
`k`-th conversion writes `args[datetime_idx[k]]` (CsvIO.cc:985-1003). -/
def fillArgs : List (Fin 6) → List ℚ → (Fin 6 → ℚ) → (Fin 6 → ℚ)
  | [], _, a => a
  | _ :: _, [], a => a
  | i :: is, n :: ns, a => fillArgs is ns (Function.update a i n)

/-- The calendar fields of the resolved timestamp (the seconds may carry a
decimal fraction, as in the source's `Date` constructor call). -/
structure DateFields where
  year : Int
  month : Int
  day : Int
  hour : Int
  minute : Int
  second : ℚ
deriving DecidableEq

/-- Embedding of `CsvParameters::createDate` (CsvIO.cc:972-981): the first
five arguments are cast to int and rejected when fractional (the
cast-and-compare check); the seconds pass through unchanged. -/
def createDate (a : Fin 6 → ℚ) : Option DateFields :=
  if (a 0).den = 1 ∧ (a 1).den = 1 ∧ (a 2).den = 1 ∧ (a 3).den = 1 ∧
      (a 4).den = 1
  then some ⟨(a 0).num, (a 1).num, (a 2).num, (a 3).num, (a 4).num, a 5⟩
  else none

/-- Embedding of `CsvParameters::parseDate(date_str, time_str)` (CsvIO.cc:983-1026)
restricted to the combined-date path of the claim (no separate time string,
no trailing `TZ`): the sscanf dispatch handles only 3 to 6 conversions — any
other token count leaves `status == false` and yields an undefined date
(CsvIO.cc:988-1004), modelled by `none`. -/
def parseDateCombined (p : List FmtItem) (input : List Char) : Option DateFields :=
  let idx := datetimeIdx p
  if 3 ≤ idx.length ∧ idx.length ≤ 6 then
    match scanFmt (toScanFmt p) input with
    | none => none
    | some vals => createDate (fillArgs idx vals (fun _ => 0))
  else none

/-- The timestamp encoded by the token values of a pattern: each calendar
field carries the pattern's value for its token, and 0 where the pattern has
no token for it. -/
def encodedFields (p : List FmtItem) (v : DTKey → Nat) : DateFields :=
  let f : Fin 6 → Int := fun j =>
    if keyOfIdx j ∈ patKeys p then (v (keyOfIdx j) : Int) else 0
  { year := f 0, month := f 1, day := f 2, hour := f 3, minute := f 4,
    second := if keyOfIdx 5 ∈ patKeys p then (v (keyOfIdx 5) : ℚ) else 0 }

/-- A baseline parameter set for the concrete runs below: two columns, comma
delimiter, nodata marker `-999`, no headers, no filters, default policies. -/
def pBase : CsvParams :=
  { csv_fields := [], skip_fields := [], units_offset := [],
    units_multiplier := [], nodata := "-999", header_lines := 0,
    header_repeat_mk := none, header_repeat_at_start := false, ID_col := none,
    filter_ID := "", csv_delim := ',', purgeQuotes := false,
    comments_mk := none, asc_order := true, silent_errors := false,
    errors_to_nodata := false }

/-- Parameters of the double-read scenario: a julian-day column (skipped as a
measurement) and one measurement column, fixed year 2020 with auto-wrap. -/
def pC3 : CsvParams := { pBase with csv_fields := ["JDN", "VAL"], skip_fields := [0] }

/-- Fixed year 2020 with auto-wrap enabled. -/
def stC3 : CsvDT := ⟨2020, true⟩

/-- A logger file that wraps: julian day 350, then julian day 10. -/
def linesC3 : List String := ["350,20", "10,21"]

/-- First read of the file. -/
def runC3a : Except String (List (Record YJDate) × CsvDT × List (YJDate × Nat)) :=
  readCSVFile pC3 (parseJdnYearDecimal none 0) stC3 none linesC3
    (mkYearJdnDate 0 0) (mkYearJdnDate 3000 0)

/-- Second read of the same file through the same parameter object, whose
`auto_wrap` state the first read has permanently cleared. -/
def runC3b : Except String (List (Record YJDate) × CsvDT × List (YJDate × Nat)) :=
  readCSVFile pC3 (parseJdnYearDecimal none 0) (stOf runC3a) none linesC3
    (mkYearJdnDate 0 0) (mkYearJdnDate 3000 0)

/-- Parameters of the descending-file indexing run: a UNIX-seconds timestamp
column, 1999 header lines (so the first data row is physical line 2000, the
index cadence), file order determined descending. -/
def pC4 : CsvParams :=
  { pBase with
    csv_fields := ["TS", "VAL"],
    skip_fields := [0],
    header_lines := 1999,
    asc_order := false }

/-- The descending file: 1999 header lines, then one data row. -/
def linesC4 : List String := List.replicate 1999 "hdr" ++ ["5,20"]

/-- A bounded read of the descending file. -/
def runC4 : Except String (List (Record Int) × CsvDT × List (Int × Nat)) :=
  readCSVFile pC4 (parseDateUnix 0) ⟨inodata, false⟩ none linesC4 (0 : Int) 100

/-- A probed file whose rows after the `parseFields` line all carry the same
timestamp. -/
def linesC10 : List String := ["1,0", "5,1", "5,2", "5,3"]

/-- The probe outcome on the duplicate-timestamp file. -/
def probeC10 : ProbeSt Int :=
  probeLoop ',' none 0 (parseDateUnix 0) linesC10 ⟨none, 0, 0, false, ⟨inodata, false⟩⟩

/-- A compiler-accepted two-token pattern, `HH24:MI`. -/
def cexPat : List FmtItem := [.key .hh24, .lit ':', .key .mi]

/-- Token values 08:30 for the two-token pattern. -/
def cexVals : DTKey → Nat := fun k =>
  match k with
  | .hh24 => 8
  | .mi => 30
  | _ => 0

/-- The full ISO-like pattern `YYYY-MM-DDTHH24:MI:SS`. -/
def demoPat : List FmtItem :=
  [.key .yyyy, .lit '-', .key .mm, .lit '-', .key .dd, .lit 'T',
   .key .hh24, .lit ':', .key .mi, .lit ':', .key .ss]

/-- Token values for 2020-01-05 08:30:00. -/
def demoVals : DTKey → Nat := fun k =>
  match k with
  | .yyyy => 2020
  | .mm => 1
  | .dd => 5
  | .hh24 => 8
  | .mi => 30
  | .ss => 0

/-- Parameters of a concrete descending-file boundary run. -/
def pC5 : CsvParams :=
  { pBase with
    csv_fields := ["TS", "VAL"],
    skip_fields := [0],
    asc_order := false }

/-- A descending file over UNIX timestamps 5, 4, 3, 2, 1. -/
def linesC5 : List String := ["5,1", "4,2", "3,3", "2,4", "1,5"]

/-- The initial loop state of the descending boundary run. -/
def stC5init : LoopSt Int :=
  { linenr := skipCount pC5, nrFields := pC5.csv_fields.length, recs := [],
    indexer := [], dt := ⟨inodata, false⟩ }

/-- The final loop state of the descending boundary run over [2, 4]. -/
def stC5run : LoopSt Int :=
  match readLoop pC5 (parseDateUnix 0) (2 : Int) 4 (linesC5.drop (skipCount pC5))
      stC5init with
  | .ok st => st
  | .error _ => stC5init

/-- Parameters for the value-error-policy witness (two columns, default
policies). -/
def pC6 : CsvParams := { pBase with csv_fields := ["TS", "VAL"] }

/-- Parameters for the unit-conversion witness: multiplier 0.01 and offset
273.15 on the measurement column. -/
def pC7 : CsvParams :=
  { pBase with
    csv_fields := ["TS", "VAL"],
    units_multiplier := [1, 0.01],
    units_offset := [0, 273.15] }

/-- Parameters for the station-ID-filter witness: ID declared in column 5,
silent-errors set. -/
def pC9 : CsvParams :=
  { pBase with
    csv_fields := ["TS", "VAL"],
    ID_col := some 5,
    silent_errors := true }

/-- Claim C2 counterexample: with fixed year 2020 and auto-wrap enabled,
julian day 350 — at or above day 273, to which the claim assigns the
configured year — is in fact assigned 2019, and julian day 10 — below day
273, to which the claim assigns the year before — is in fact assigned
2020. -/
theorem c2_counterexample :
    (getFixedYearJdn ⟨2020, true⟩ 350).1 = 2019 ∧
    (getFixedYearJdn ⟨2020, true⟩ 10).1 = 2020 ∧
    (2019 : Int) ≠ 2020 := by decide

/-- Claim C2 (amended): with a configured fallback year and auto-wrap still
enabled, a record at or above julian day 273 (month 10 or later) is assigned
the year *before* the configured year; a record below day 273 (month before
10) permanently disables auto-wrap and is assigned the configured year
itself. -/
theorem c2_amended (st : CsvDT) (j : ℚ) (m : Int) (h : st.auto_wrap = true) :
    (273 ≤ j → getFixedYearJdn st j = (st.year_cst - 1, st)) ∧
    (j < 273 → getFixedYearJdn st j = (st.year_cst, { st with auto_wrap := false })) ∧
    (10 ≤ m → getFixedYearMonth st m = (st.year_cst - 1, st)) ∧
    (m < 10 → getFixedYearMonth st m = (st.year_cst, { st with auto_wrap := false })) := by
  refine ⟨fun hj => ?_, fun hj => ?_, fun hm => ?_, fun hm => ?_⟩
  · simp [getFixedYearJdn, not_lt.mpr hj, h]
  · simp [getFixedYearJdn, hj]
  · simp [getFixedYearMonth, not_lt.mpr hm, h]
  · simp [getFixedYearMonth, hm]

/-- Witness for `c2_amended`: fixed year 2020 with auto-wrap, julian day 350
and month 12. -/
theorem c2_amended_witness :
    (273 ≤ (350 : ℚ) → getFixedYearJdn ⟨2020, true⟩ 350 = (2020 - 1, ⟨2020, true⟩)) ∧
    ((350 : ℚ) < 273 → getFixedYearJdn ⟨2020, true⟩ 350 = (2020, ⟨2020, false⟩)) ∧
    ((10 : Int) ≤ 12 → getFixedYearMonth ⟨2020, true⟩ 12 = (2020 - 1, ⟨2020, true⟩)) ∧
    ((12 : Int) < 10 → getFixedYearMonth ⟨2020, true⟩ 12 = (2020, ⟨2020, false⟩)) :=
  c2_amended ⟨2020, true⟩ 350 12 rfl

/-- Claim C10 counterexample: probing a file whose parseable rows all carry
the same timestamp marks the file as descending — every duplicate-timestamp
transition falls into the `count_dsc` branch — while the claim, treating
duplicates as "no valid transition", predicts ascending. -/
theorem c10_counterexample :
    probeC10.cAsc = 0 ∧ probeC10.cDsc = 2 ∧ ascOrderOf probeC10 = false := by decide

/-- Claim C10 (amended): a transition with an equal timestamp counts as
descending (the ascending test is strict), and the probe marks the file
descending exactly when strictly more descending than ascending transitions
were counted — so on a tie, in particular when no transition was counted at
all (fewer than two parseable probed rows), the file is treated as
ascending. -/
theorem c10_amended :
    (∀ d : Int, transAsc d d = false) ∧
    (∀ (D : Type) (st : ProbeSt D), ascOrderOf st = false ↔ st.cAsc < st.cDsc) := by
  constructor
  · intro d; simp [transAsc]
  · intro D st; by_cases h : st.cAsc < st.cDsc <;> simp [ascOrderOf, h]

/-- Claim C3: reading the wrap-around file twice through the same parameter
object yields different record sequences — the first read assigns years 2019
then 2020, the second read (auto-wrap having been permanently cleared by the
first) assigns 2020 to both rows. -/
theorem c3_not_idempotent :
    (recsOf runC3a).map Record.date = [mkYearJdnDate 2019 350, mkYearJdnDate 2020 10] ∧
    (recsOf runC3b).map Record.date = [mkYearJdnDate 2020 350, mkYearJdnDate 2020 10] ∧
    recsOf runC3a ≠ recsOf runC3b := by decide

set_option maxRecDepth 100000 in
set_option maxHeartbeats 1000000 in
/-- Claim C4 counterexample: a bounded read of a file whose order was
determined descending still records a position-index entry at the fixed row
cadence (here the data row on physical line 2000) — the ascending-order
condition does not guard the recording. -/
theorem c4_counterexample :
    pC4.asc_order = false ∧ ixOf runC4 = [((5 : Int), 2000)] := by decide

/-- The per-column body does not consult the discovered file order. -/
lemma fieldStep_asc (p : CsvParams) (b : Bool) :
    fieldStep { p with asc_order := b } = fieldStep p := rfl

/-- The per-row field loop does not consult the discovered file order. -/
lemma buildRowAux_asc (p : CsvParams) (b : Bool) (l : List (Nat × String)) :
    ∀ st, buildRowAux { p with asc_order := b } l st = buildRowAux p l st := by
  induction l with
  | nil => intro st; rfl
  | cons e rest ih =>
    intro st
    show (match fieldStep { p with asc_order := b } st e.1 e.2 with
      | Except.error msg => Except.error msg
      | Except.ok st1 => buildRowAux { p with asc_order := b } rest st1) =
      (match fieldStep p st e.1 e.2 with
      | Except.error msg => Except.error msg
      | Except.ok st1 => buildRowAux p rest st1)
    rw [fieldStep_asc]
    cases hfs : fieldStep p st e.1 e.2 with
    | error msg => rfl
    | ok st1 => exact ih st1

/-- Row building does not consult the discovered file order. -/
lemma buildRow_asc (p : CsvParams) (b : Bool) (toks : List String) :
    buildRow { p with asc_order := b } toks = buildRow p toks := by
  unfold buildRow
  rw [show templateFields { p with asc_order := b } = templateFields p from rfl]
  exact buildRowAux_asc p b toks.enum _

/-- Row emission never touches the recorded index entries. -/
lemma emitRow_indexer {D : Type} (st : LoopSt D) (dt : D) (rb : RowBuild) :
    (emitRow st dt rb).indexer = st.indexer := by
  unfold emitRow
  split <;> rfl

/-- The post-date tail records the same index entries for either discovered
file order. -/
lemma afterDate_asc {D : Type} [LinearOrder D] (p : CsvParams) (b : Bool)
    (ds de : D) (st : LoopSt D) (toks : List String) (dt : D) :
    (afterDate { p with asc_order := b } ds de st toks dt).ixOf =
      (afterDate p ds de st toks dt).ixOf := by
  unfold afterDate
  rw [show buildRow { p with asc_order := b } = buildRow p from
    funext (buildRow_asc p b)]
  dsimp only
  cases b <;> cases hpa : p.asc_order <;>
    by_cases h1 : dt < ds <;> by_cases h2 : de < dt <;>
      cases hbr : buildRow p toks <;>
        simp [rangeAction, h1, h2, LineRes.ixOf, emitRow_indexer]

/-- The whole tokenized-line processing records the same index entries for
either discovered file order. -/
lemma processTokens_asc {D : Type} [LinearOrder D] (p : CsvParams) (b : Bool)
    (pd : CsvDT → List String → Option D × CsvDT) (ds de : D)
    (st : LoopSt D) (toks : List String) :
    (processTokens { p with asc_order := b } pd ds de st toks).ixOf =
      (processTokens p pd ds de st toks).ixOf := by
  unfold processTokens
  dsimp only
  iterate 10
    all_goals first
      | rfl
      | exact afterDate_asc p b ds de _ toks _
      | split
      | skip

/-- Claim C4 (amended): position-index entries are recorded at the fixed row
cadence regardless of the discovered file order — processing any single line
yields the same recorded entries whether `asc_order` is true or false.  The
ascending-order condition instead governs only the *use* of the index: a read
of a file determined descending ignores the index lookup result entirely. -/
theorem c4_amended :
    (∀ (D : Type) (inst : LinearOrder D) (p : CsvParams)
       (pd : CsvDT → List String → Option D × CsvDT) (ds de : D)
       (st : LoopSt D) (line : String),
       (processLine { p with asc_order := true } pd ds de st line).ixOf =
         (processLine { p with asc_order := false } pd ds de st line).ixOf) ∧
    (∀ (D : Type) (inst : LinearOrder D) (p : CsvParams)
       (pd : CsvDT → List String → Option D × CsvDT) (dt0 : CsvDT)
       (fp : Nat) (lines : List String) (ds de : D),
       readCSVFile { p with asc_order := false } pd dt0 (some fp) lines ds de =
         readCSVFile { p with asc_order := false } pd dt0 none lines ds de) := by
  constructor
  · intro D inst p pd ds de st0 line
    unfold processLine
    dsimp only
    rw [show hasRepeatMk { p with asc_order := true } = hasRepeatMk p from rfl,
        show hasRepeatMk { p with asc_order := false } = hasRepeatMk p from rfl]
    iterate 6
      all_goals first
        | rfl
        | exact (processTokens_asc p true pd ds de _ _).trans
            (processTokens_asc p false pd ds de _ _).symm
        | split
        | skip
  · intro D inst p pd dt0 fp lines ds de
    rfl

/-- The range decision keeps a row exactly when its timestamp lies in the
closed query interval, for either file order. -/
lemma rangeAction_keep_iff {D : Type} [LinearOrder D] (asc : Bool)
    (ds de dt : D) :
    rangeAction asc ds de dt = RAct.keep ↔ (ds ≤ dt ∧ dt ≤ de) := by
  cases asc <;> unfold rangeAction <;> split_ifs with h1 h2 <;>
    simp_all [not_lt, le_of_lt]

/-- Claim C5: a row is kept by the range decision exactly when its timestamp
lies in the closed interval from `dateStart` to `dateEnd` — for either
discovered file order — so a row exactly at either boundary is included and a
row strictly outside is excluded; and a descending file's collected records
are returned reversed, restoring ascending time order. -/
theorem c5_range_boundaries :
    (∀ (D : Type) (inst : LinearOrder D) (asc : Bool) (ds de dt : D),
       rangeAction asc ds de dt = RAct.keep ↔ (ds ≤ dt ∧ dt ≤ de)) ∧
    (∀ (D : Type) (inst : LinearOrder D) (p : CsvParams)
       (pd : CsvDT → List String → Option D × CsvDT) (dt0 : CsvDT)
       (lines : List String) (ds de : D) (st1 : LoopSt D),
       p.asc_order = false → ¬ unitsBad p →
       readLoop p pd ds de (lines.drop (skipCount p))
         { linenr := skipCount p, nrFields := p.csv_fields.length, recs := [],
           indexer := [], dt := dt0 } = .ok st1 →
       readCSVFile p pd dt0 none lines ds de =
         .ok (st1.recs.reverse, st1.dt, st1.indexer)) := by
  constructor
  · intro D inst asc ds de dt
    exact rangeAction_keep_iff asc ds de dt
  · intro D inst p pd dt0 lines ds de st1 hasc hu hloop
    unfold readCSVFile
    rw [if_neg hu]
    dsimp only
    rw [hloop, hasc]
    simp

/-- Witness for `c5_range_boundaries`: a boundary row at timestamp 4 of the
descending file [5, 4, 3, 2, 1] is kept for the query interval [2, 4], and
the bounded read returns the collected records reversed. -/
theorem c5_range_boundaries_witness :
    (rangeAction false (2 : Int) 4 4 = RAct.keep ↔ ((2 : Int) ≤ 4 ∧ (4 : Int) ≤ 4)) ∧
    readCSVFile pC5 (parseDateUnix 0) ⟨inodata, false⟩ none linesC5 (2 : Int) 4 =
      .ok (stC5run.recs.reverse, stC5run.dt, stC5run.indexer) :=
  ⟨c5_range_boundaries.1 Int inferInstance false 2 4 4,
   c5_range_boundaries.2 Int inferInstance pC5 (parseDateUnix 0) ⟨inodata, false⟩
     linesC5 2 4 stC5run rfl (by decide) rfl⟩

/-- The unit conversions leave the nodata sentinel untouched. -/
lemma applyUnits_nodata (p : CsvParams) (ii : Nat) :
    applyUnits p ii nodataQ = nodataQ := by
  simp [applyUnits, applyMult, applyOffset]

/-- Claim C6: on a numeric parse failure in a non-skipped measurement token,
the silent-errors policy clears the row's `no_errors` flag — and a row with
`no_errors` cleared is not emitted, so the whole row is dropped; otherwise
the errors-to-nodata policy keeps the row and stores the nodata sentinel for
that one field; with neither policy the read aborts with an error.  The
silent-errors branch is checked first, so when both policies are set the row
is dropped. -/
theorem c6_value_error_policy (p : CsvParams) (st : RowBuild) (ii : Nat)
    (tok : String)
    (hskip : p.skip_fields.contains ii = false)
    (h1 : tok ≠ "") (h2 : tok ≠ p.nodata) (h3 : tok ≠ dquote p.nodata)
    (h4 : tok ≠ squote p.nodata) (h5 : tok ≠ "NAN") (h6 : tok ≠ "NULL")
    (hparse : parseNumber tok = none) :
    (p.silent_errors = true →
       fieldStep p st ii tok = .ok { st with no_errors := false }) ∧
    (p.silent_errors = false → p.errors_to_nodata = true →
       fieldStep p st ii tok =
         .ok { st with fields := setField st.fields (fieldName p ii) nodataQ }) ∧
    (p.silent_errors = false → p.errors_to_nodata = false →
       fieldStep p st ii tok = .error ("could not parse field")) ∧
    (∀ (D : Type) (lst : LoopSt D) (dt : D) (rb : RowBuild),
       rb.no_errors = false → emitRow lst dt rb = lst) := by
  have hskip2 : ii ∉ p.skip_fields := by simpa using hskip
  refine ⟨fun hs => ?_, fun hs he => ?_, fun hs he => ?_,
    fun D lst dt rb hrb => ?_⟩
  · simp [fieldStep, hskip2, h1, h2, h3, h4, h5, h6, hparse, hs]
  · simp [fieldStep, hskip2, h1, h2, h3, h4, h5, h6, hparse, hs, he,
      applyUnits_nodata]
  · simp [fieldStep, hskip2, h1, h2, h3, h4, h5, h6, hparse, hs, he]
  · simp [emitRow, hrb]

/-- Witness for `c6_value_error_policy` at the unparseable token `x2` in the
measurement column of `pC6`. -/
theorem c6_value_error_policy_witness :
    (pC6.silent_errors = true →
       fieldStep pC6 ⟨[("VAL", nodataQ)], true⟩ 1 ("x2") =
         .ok ⟨[("VAL", nodataQ)], false⟩) ∧
    (pC6.silent_errors = false → pC6.errors_to_nodata = true →
       fieldStep pC6 ⟨[("VAL", nodataQ)], true⟩ 1 ("x2") =
         .ok ⟨setField [("VAL", nodataQ)] (fieldName pC6 1) nodataQ, true⟩) ∧
    (pC6.silent_errors = false → pC6.errors_to_nodata = false →
       fieldStep pC6 ⟨[("VAL", nodataQ)], true⟩ 1 ("x2") =
         .error ("could not parse field")) ∧
    (∀ (D : Type) (lst : LoopSt D) (dt : D) (rb : RowBuild),
       rb.no_errors = false → emitRow lst dt rb = lst) :=
  c6_value_error_policy pC6 ⟨[("VAL", nodataQ)], true⟩ 1 ("x2") (by decide)
    (by decide) (by decide) (by decide) (by decide) (by decide) (by decide)
    (by decide)

/-- Claim C7: for a non-skipped column with declared unit conversions, the
stored value is the raw value first multiplied by the column's multiplier and
then increased by the column's offset, in that order; in particular
multiplier 0.01 and offset 273.15 applied to raw value 20 yield 273.35. -/
theorem c7_units_multiply_then_add (p : CsvParams) (ii : Nat) (v : ℚ)
    (hm : p.units_multiplier ≠ []) (ho : p.units_offset ≠ [])
    (hv : v ≠ nodataQ) (hv2 : v * p.units_multiplier.getD ii 1 ≠ nodataQ) :
    applyUnits p ii v =
      v * p.units_multiplier.getD ii 1 + p.units_offset.getD ii 0 ∧
    (p.units_multiplier.getD ii 1 = 0.01 → p.units_offset.getD ii 0 = 273.15 →
      v = 20 → applyUnits p ii v = 273.35) := by
  have hmul1 : applyMult p ii v = v * p.units_multiplier.getD ii 1 := by
    unfold applyMult
    rw [if_pos ⟨hm, hv⟩]
  have hbase : applyUnits p ii v =
      v * p.units_multiplier.getD ii 1 + p.units_offset.getD ii 0 := by
    unfold applyUnits applyOffset
    rw [hmul1, if_pos ⟨ho, hv2⟩]
  refine ⟨hbase, fun hmul hoff hv20 => ?_⟩
  rw [hbase, hmul, hoff, hv20]
  norm_num

/-- Witness for `c7_units_multiply_then_add`: raw value 20 under multiplier
0.01 and offset 273.15 of `pC7`. -/
theorem c7_units_multiply_then_add_witness :
    applyUnits pC7 1 20 =
      20 * pC7.units_multiplier.getD 1 1 + pC7.units_offset.getD 1 0 ∧
    (pC7.units_multiplier.getD 1 1 = 0.01 → pC7.units_offset.getD 1 0 = 273.15 →
      (20 : ℚ) = 20 → applyUnits pC7 1 20 = 273.35) :=
  c7_units_multiply_then_add pC7 1 20 (by decide) (by decide)
    (by norm_num [nodataQ])
    (by rw [show pC7.units_multiplier.getD 1 1 = 0.01 from rfl]
        norm_num [nodataQ])

/-- Setting an existing field stores the new value at its name. -/
lemma lookupField_setField (fs : List (String × ℚ)) (n : String) (x : ℚ)
    (h : (lookupField fs n).isSome) :
    lookupField (setField fs n x) n = some x := by
  induction fs with
  | nil => simp [lookupField] at h
  | cons e rest ih =>
    obtain ⟨a, b⟩ := e
    by_cases he : a = n
    · subst he; simp [setField, lookupField]
    · have hd : decide (a = n) = false := by simp [he]
      simp only [setField, if_neg he, lookupField, List.find?, hd] at h ⊢
      exact ih h

/-- Claim C8: a measurement token equal to the empty string, the configured
nodata marker (bare, or wrapped in single or double quotes), or the literal
tokens NAN or NULL leaves the field at the nodata sentinel — never a numeric
value; in particular with nodata marker `-999` the token `-999` yields the
sentinel and not the number -999. -/
theorem c8_nodata_tokens (p : CsvParams) (st : RowBuild) (ii : Nat)
    (tok : String)
    (hskip : p.skip_fields.contains ii = false)
    (hcur : lookupField st.fields (fieldName p ii) = some nodataQ)
    (htok : tok = "" ∨ tok = p.nodata ∨ tok = dquote p.nodata ∨
            tok = squote p.nodata ∨ tok = "NAN" ∨ tok = "NULL") :
    ∃ st1, fieldStep p st ii tok = .ok st1 ∧
      lookupField st1.fields (fieldName p ii) = some nodataQ := by
  have hskip2 : ii ∉ p.skip_fields := by simpa using hskip
  by_cases hq : tok = "" ∨ tok = p.nodata ∨ tok = dquote p.nodata ∨
      tok = squote p.nodata
  · exact ⟨st, by simp [fieldStep, hskip2, hq], hcur⟩
  · have hnn : tok = "NAN" ∨ tok = "NULL" := by tauto
    push_neg at hq
    obtain ⟨hqa, hqb, hqc, hqd⟩ := hq
    refine ⟨{ st with fields := setField st.fields (fieldName p ii) nodataQ },
      ?_, ?_⟩
    · rcases hnn with h | h <;> subst h <;>
        simp [fieldStep, hskip2, hqb, hqc, hqd]
    · exact lookupField_setField st.fields (fieldName p ii) nodataQ
        (by rw [hcur]; rfl)

/-- Witness for `c8_nodata_tokens`: nodata marker `-999` and row token `-999`
in the measurement column. -/
theorem c8_nodata_tokens_witness :
    ∃ st1, fieldStep pC6 ⟨[("VAL", nodataQ)], true⟩ 1 ("-999") = .ok st1 ∧
      lookupField st1.fields (fieldName pC6 1) = some nodataQ :=
  c8_nodata_tokens pC6 ⟨[("VAL", nodataQ)], true⟩ 1 ("-999") (by decide)
    (by decide) (by decide)

/-- Claim C9: with a station-ID filter column configured, a data line with
too few tokens to reach that column always aborts the read with an error —
the silent-errors policy does not apply — whereas a plain field-count
mismatch under silent-errors merely skips the line. -/
theorem c9_id_column_error (D : Type) (inst : LinearOrder D) (p : CsvParams)
    (pd : CsvDT → List String → Option D × CsvDT) (ds de : D)
    (st : LoopSt D) (toks : List String) (c : Nat)
    (hid : p.ID_col = some c) (hlen : toks.length ≤ c) :
    processTokens p pd ds de st toks =
      .err ("declared station ID column out of range") ∧
    (∀ (st2 : LoopSt D) (toks2 : List String),
       st2.nrFields ≠ 0 → toks2.length ≠ st2.nrFields →
       processTokens { p with ID_col := none, silent_errors := true } pd ds de
         st2 toks2 = .cont st2 0) := by
  constructor
  · simp [processTokens, hid, hlen]
  · intro st2 toks2 hn hmm
    simp [processTokens, hn, hmm]

/-- Every character of a fixed-width rendering is a decimal digit. -/
lemma padNum_isDigit (w : Nat) : ∀ (n : Nat), ∀ c ∈ padNum w n, c.isDigit = true := by
  induction w with
  | zero => intro n c hc; simp [padNum] at hc
  | succ w ih =>
    intro n c hc
    simp only [padNum, List.mem_append, List.mem_singleton] at hc
    rcases hc with h | h
    · exact ih _ _ h
    · subst h
      have hall : ∀ d, d < 10 → (Nat.digitChar d).isDigit = true := by decide
      exact hall _ (Nat.mod_lt _ (by norm_num))

/-- A fixed-width rendering has exactly its width. -/
lemma padNum_length (w : Nat) : ∀ n, (padNum w n).length = w := by
  induction w with
  | zero => intro n; rfl
  | succ w ih => intro n; simp [padNum, ih]

/-- Numeric value of a rendering extended by one digit. -/
lemma digitsVal_append (l : List Char) (c : Char) :
    digitsVal (l ++ [c]) = digitsVal l * 10 + (c.toNat - 48) := by
  simp [digitsVal, List.foldl_append]

/-- Scanning back a fixed-width rendering recovers the value. -/
lemma digitsVal_padNum (w : Nat) : ∀ n, n < 10 ^ w → digitsVal (padNum w n) = n := by
  induction w with
  | zero =>
    intro n h
    have hn : n = 0 := by simpa using Nat.lt_one_iff.mp (by simpa using h)
    subst hn; rfl
  | succ w ih =>
    intro n h
    have hd : n / 10 < 10 ^ w := by
      rw [Nat.div_lt_iff_lt_mul (by norm_num)]
      calc n < 10 ^ (w + 1) := h
        _ = 10 ^ w * 10 := by rw [pow_succ]
    have hchar : (Nat.digitChar (n % 10)).toNat - 48 = n % 10 := by
      have hall : ∀ d, d < 10 → (Nat.digitChar d).toNat - 48 = d := by decide
      exact hall _ (Nat.mod_lt _ (by norm_num))
    show digitsVal (padNum w (n / 10) ++ [Nat.digitChar (n % 10)]) = n
    rw [digitsVal_append, ih _ hd, hchar]
    omega

/-- takeWhile over a prefix wholly satisfying the predicate. -/
lemma takeWhile_append_all {α : Type} (q : α → Bool) (a b : List α)
    (h : ∀ x ∈ a, q x = true) :
    (a ++ b).takeWhile q = a ++ b.takeWhile q := by
  induction a with
  | nil => simp
  | cons x xs ih =>
    have hx : q x = true := h x (by simp)
    simp [List.takeWhile_cons, hx, ih (fun y hy => h y (by simp [hy]))]

/-- The float prefix of an all-digit list is the whole list. -/
lemma floatPrefix_all (l : List Char) (h : l.takeWhile Char.isDigit = l) :
    floatPrefix l = l := by
  unfold floatPrefix
  rw [h, List.drop_length]

/-- The float value of an all-digit list is its digit value. -/
lemma floatVal_digits (l : List Char) (h : l.takeWhile Char.isDigit = l) :
    floatVal l = (digitsVal l : ℚ) := by
  unfold floatVal
  rw [h, if_pos rfl]

/-- A nonempty all-digit list contains a digit. -/
lemma any_isDigit (l : List Char) (hne : l ≠ [])
    (hids : ∀ c ∈ l, c.isDigit = true) : l.any Char.isDigit = true := by
  obtain ⟨c, hc⟩ := List.exists_mem_of_ne_nil l hne
  exact List.any_eq_true.mpr ⟨c, hc, hids c hc⟩

/-- A bounded numeric conversion consumes exactly a width-matching digit
rendering and recovers the value. -/
lemma scanNum_padNum (w n : Nat) (rest : List Char) (hw : w ≠ 0)
    (hn : n < 10 ^ w) :
    scanNum w (padNum w n ++ rest) = some ((n : ℚ), rest) := by
  have hids := padNum_isDigit w n
  have hlen := padNum_length w n
  have hself : (padNum w n).takeWhile Char.isDigit = padNum w n := by
    simpa using takeWhile_append_all Char.isDigit (padNum w n) [] hids
  have hds : scanNumDs w (padNum w n ++ rest) = padNum w n := by
    unfold scanNumDs
    rw [if_neg hw, List.take_left' hlen, floatPrefix_all _ hself]
  have hne : padNum w n ≠ [] := by
    intro he
    rw [he] at hlen
    exact hw hlen.symm
  unfold scanNum
  rw [hds, if_pos (any_isDigit _ hne hids),
    floatVal_digits _ hself, digitsVal_padNum w n hn, List.drop_left]

/-- The unbounded conversion consumes exactly a two-digit rendering when the
following character is neither a digit nor a decimal point (or the input
ends). -/
lemma scanNum_unbounded (n : Nat) (rest : List Char) (hn : n < 10 ^ 2)
    (hrest : rest.takeWhile Char.isDigit = [])
    (hdot : rest.head? ≠ some '.') :
    scanNum 0 (padNum 2 n ++ rest) = some ((n : ℚ), rest) := by
  have hids := padNum_isDigit 2 n
  have hlen := padNum_length 2 n
  have hself : (padNum 2 n).takeWhile Char.isDigit = padNum 2 n := by
    simpa using takeWhile_append_all Char.isDigit (padNum 2 n) [] hids
  have htw : (padNum 2 n ++ rest).takeWhile Char.isDigit = padNum 2 n := by
    rw [takeWhile_append_all Char.isDigit _ _ hids, hrest, List.append_nil]
  have hds : scanNumDs 0 (padNum 2 n ++ rest) = padNum 2 n := by
    unfold scanNumDs floatPrefix
    rw [if_pos rfl, List.take_length, htw, List.drop_left]
    cases rest with
    | nil => rfl
    | cons c rest2 =>
      have hc : ¬ c = '.' := by
        intro he
        exact hdot (by rw [he]; rfl)
      show (if c = '.' then padNum 2 n ++ c :: rest2.takeWhile Char.isDigit
        else padNum 2 n) = padNum 2 n
      rw [if_neg hc]
  have hne : padNum 2 n ≠ [] := by
    intro he
    rw [he] at hlen
    simp at hlen
  unfold scanNum
  rw [hds, if_pos (any_isDigit _ hne hids),
    floatVal_digits _ hself, digitsVal_padNum 2 n hn, List.drop_left]

/-- The compiled scan template applied to a matching rendering recovers the
token values in pattern order. -/
lemma scanFmt_render (p : List FmtItem) (v : DTKey → Nat)
    (hlits : litsOKB p = true) (hss : ssSepB p = true)
    (hv : ∀ k, v k < 10 ^ k.renderWidth) :
    scanFmt (toScanFmt p) (renderPat p v) =
      some ((patKeys p).map (fun k => ((v k : ℚ)))) := by
  induction p with
  | nil => rfl
  | cons i rest ih =>
    cases i with
    | lit c =>
      have hlits' : litsOKB rest = true := by
        simp only [litsOKB, List.all_cons, Bool.and_eq_true] at hlits
        exact hlits.2
      have hss' : ssSepB rest = true := hss
      show scanFmt (ScanItem.slit c :: toScanFmt rest) (c :: renderPat rest v) =
        some ((patKeys rest).map (fun k => ((v k : ℚ))))
      simp [scanFmt, ih hlits' hss']
    | key k =>
      have hlits' : litsOKB rest = true := by
        simp only [litsOKB, List.all_cons, Bool.and_eq_true] at hlits
        exact hlits.2
      by_cases hks : k = DTKey.ss
      · subst hks
        have hss' : ssSepB rest = true := by
          simp only [ssSepB, Bool.and_eq_true] at hss
          exact hss.2
        have hguard : (renderPat rest v).takeWhile Char.isDigit = [] ∧
            (renderPat rest v).head? ≠ some '.' := by
          cases rest with
          | nil => exact ⟨rfl, by simp [renderPat]⟩
          | cons j rest2 =>
            cases j with
            | lit c =>
              have hc : c.isDigit = false := by
                simp only [litsOKB, List.all_cons, Bool.and_eq_true,
                  Bool.not_eq_true'] at hlits'
                exact hlits'.1.1
              have hcdot : ¬ c = '.' := by
                simp only [ssSepB, Bool.and_eq_true] at hss
                intro he
                rw [he] at hss
                simpa using hss.1
              constructor
              · show ((c :: renderPat rest2 v).takeWhile Char.isDigit) = []
                simp [List.takeWhile_cons, hc]
              · show ((c :: renderPat rest2 v).head? : Option Char) ≠ some '.'
                simpa using hcdot
            | key k2 =>
              exfalso
              simp [ssSepB] at hss
        have hsn : scanNum 0 (padNum 2 (v DTKey.ss) ++ renderPat rest v) =
            some (((v DTKey.ss : ℚ)), renderPat rest v) :=
          scanNum_unbounded (v DTKey.ss) (renderPat rest v) (hv DTKey.ss)
            hguard.1 hguard.2
        show (match scanNum 0 (padNum 2 (v DTKey.ss) ++ renderPat rest v) with
          | none => none
          | some r =>
            match scanFmt (toScanFmt rest) r.2 with
            | none => none
            | some ns => some (r.1 :: ns)) =
          some (((v DTKey.ss : ℚ)) :: (patKeys rest).map (fun k => ((v k : ℚ))))
        rw [hsn]
        dsimp only
        rw [ih hlits' hss']
      · have hss' : ssSepB rest = true := by
          cases k <;> simp_all [ssSepB]
        have hw : k.renderWidth ≠ 0 ∧ k.scanWidth = k.renderWidth := by
          cases k <;> simp_all [DTKey.scanWidth, DTKey.renderWidth]
        have hsn : scanNum k.scanWidth
            (padNum k.renderWidth (v k) ++ renderPat rest v) =
            some (((v k : ℚ)), renderPat rest v) := by
          rw [hw.2]
          exact scanNum_padNum _ _ _ hw.1 (hv k)
        show (match scanNum k.scanWidth
            (padNum k.renderWidth (v k) ++ renderPat rest v) with
          | none => none
          | some r =>
            match scanFmt (toScanFmt rest) r.2 with
            | none => none
            | some ns => some (r.1 :: ns)) =
          some (((v k : ℚ)) :: (patKeys rest).map (fun k => ((v k : ℚ))))
        rw [hsn]
        dsimp only
        rw [ih hlits' hss']

/-- The ISO index is a bijection onto the six argument slots. -/
lemma keyOfIdx_isoIdx (k : DTKey) : keyOfIdx k.isoIdx = k := by
  cases k <;> rfl

/-- The inverse direction of the bijection. -/
lemma isoIdx_keyOfIdx (j : Fin 6) : (keyOfIdx j).isoIdx = j := by
  fin_cases j <;> rfl

/-- The scatter of the scanned values into the argument slots: slot `j` ends
up holding the value of the token with ISO index `j` when the pattern has
one, and the initial value otherwise. -/
lemma fillArgs_eval (ks : List DTKey) (v : DTKey → ℚ) :
    ∀ (z : Fin 6 → ℚ) (j : Fin 6),
      fillArgs (ks.map DTKey.isoIdx) (ks.map v) z j =
        if keyOfIdx j ∈ ks then v (keyOfIdx j) else z j := by
  induction ks with
  | nil => intro z j; simp [fillArgs]
  | cons k rest ih =>
    intro z j
    simp only [List.map_cons, fillArgs]
    rw [ih]
    by_cases hmem : keyOfIdx j ∈ rest
    · simp [hmem]
    · by_cases hjk : j = k.isoIdx
      · subst hjk
        simp [hmem, keyOfIdx_isoIdx, Function.update_apply]
      · have hne : keyOfIdx j ≠ k := by
          intro he
          exact hjk (by rw [← isoIdx_keyOfIdx j, he])
        simp [hmem, hne, Function.update_apply, hjk]

/-- A duplicate-free token list fits in the six argument slots. -/
lemma patKeys_length_le (p : List FmtItem) (h : (patKeys p).Nodup) :
    (patKeys p).length ≤ 6 := by
  have hcard := List.Nodup.length_le_card h
  simpa using hcard

/-- Witness for `c9_id_column_error`: ID column 5 and a one-token line, with
silent-errors set. -/
theorem c9_id_column_error_witness :
    processTokens pC9 (parseDateUnix 0) (0 : Int) 100
        ⟨0, 2, [], [], ⟨inodata, false⟩⟩ ["x"] =
      .err ("declared station ID column out of range") ∧
    (∀ (st2 : LoopSt Int) (toks2 : List String),
       st2.nrFields ≠ 0 → toks2.length ≠ st2.nrFields →
       processTokens { pC9 with ID_col := none, silent_errors := true }
         (parseDateUnix 0) (0 : Int) 100 st2 toks2 = .cont st2 0) :=
  c9_id_column_error Int inferInstance pC9 (parseDateUnix 0) 0 100
    ⟨0, 2, [], [], ⟨inodata, false⟩⟩ ["x"] 5 rfl (by decide)

end CsvSpec
